import Mathlib

/-!
Shallow embedding of `polyCourse2Calendar.py`: a script that parses two CSV
exports (a weekly timetable and an alternating-week legend), merges duplicate
timetable rows, and expands the merged groups into calendar events.

Python strings are `String`; Python `datetime` dates (always at midnight here)
are embedded as their rata-die day number (`Nat`), so `timedelta(days=1)`
is `+ 1` and `datetime` comparison is `Nat` order.  Fallible operations
(`ValueError`, uncaught unpacking errors) are `Except String` / `Option`.
-/

namespace Poly

/-! ### Python string primitives -/

/-- `str.lower()` (ASCII, which covers every string the program lowercases). -/
def pyLower (s : String) : String := String.mk (s.data.map Char.toLower)

/-- `str.upper()` (ASCII, which covers every string the program uppercases). -/
def pyUpper (s : String) : String := String.mk (s.data.map Char.toUpper)

/-- `str.strip()` on ASCII whitespace. -/
def pyStrip (s : String) : String := s.trim

/-- `str.replace(',', '.')`. -/
def pyReplaceCommaDot (s : String) : String :=
  String.mk (s.data.map (fun c => if c = ',' then '.' else c))

/-- `s.split(',')` at the character-list level: splits at every comma and
keeps empty chunks, so the result is never `[]` (Python semantics). -/
def splitCL : List Char → List (List Char)
  | [] => [[]]
  | c :: cs =>
    if c = ',' then [] :: splitCL cs
    else
      match splitCL cs with
      | [] => [[c]]
      | t :: ts => (c :: t) :: ts

/-- `','.join(...)` at the character-list level. -/
def joinCL : List (List Char) → List Char
  | [] => []
  | [x] => x
  | x :: y :: ys => x ++ ',' :: joinCL (y :: ys)

/-- Python `s.split(',')`. -/
def pySplit (s : String) : List String := (splitCL s.data).map String.mk

/-- Python `','.join(l)`. -/
def pyJoin (l : List String) : String := String.mk (joinCL (l.map String.data))

/-- Lexicographic (code-point) `<=` on character lists, as Python compares
strings. -/
def charListLe : List Char → List Char → Bool
  | [], _ => true
  | _ :: _, [] => false
  | a :: as, b :: bs => if a < b then true else if b < a then false else charListLe as bs

/-- Python string `<=`. -/
def strLe (a b : String) : Bool := charListLe a.data b.data

/-- Insertion step of a stable sort by `strLe`. -/
def insertStr (x : String) : List String → List String
  | [] => [x]
  | y :: ys => if strLe x y then x :: y :: ys else y :: insertStr x ys

/-- Python `sorted` on a list of strings (stable; equal strings are
identical, so insertion sort produces the same list of values). -/
def sortStrings : List String → List String
  | [] => []
  | x :: xs => insertStr x (sortStrings xs)

/-! ### Lemmas about split / join / sort -/

theorem splitCL_ne_nil (cs : List Char) : splitCL cs ≠ [] := by
  match cs with
  | [] => simp [splitCL]
  | c :: cs =>
    unfold splitCL
    split
    · simp
    · match h : splitCL cs with
      | [] => simp
      | t :: ts => simp

theorem splitCL_append_comma (xs ys : List Char) :
    splitCL (xs ++ ',' :: ys) = splitCL xs ++ splitCL ys := by
  induction xs with
  | nil => simp [splitCL]
  | cons c cs ih =>
    by_cases hc : c = ','
    · subst hc
      show splitCL (',' :: (cs ++ ',' :: ys)) = splitCL (',' :: cs) ++ splitCL ys
      simp only [splitCL, if_pos rfl]
      rw [ih]
      rfl
    · show splitCL (c :: (cs ++ ',' :: ys)) = splitCL (c :: cs) ++ splitCL ys
      simp only [splitCL, if_neg hc]
      rw [ih]
      rcases h : splitCL cs with _ | ⟨t, ts⟩
      · exact absurd h (splitCL_ne_nil cs)
      · simp

theorem splitCL_of_no_comma (cs : List Char) (h : ',' ∉ cs) : splitCL cs = [cs] := by
  induction cs with
  | nil => rfl
  | cons c cs ih =>
    have hc : c ≠ ',' := by
      intro hEq; exact h (hEq ▸ List.mem_cons_self c cs)
    have hcs : ',' ∉ cs := fun hm => h (List.mem_cons_of_mem c hm)
    simp only [splitCL, if_neg hc, ih hcs]

theorem mem_splitCL_no_comma (cs : List Char) (t : List Char) (ht : t ∈ splitCL cs) :
    ',' ∉ t := by
  induction cs generalizing t with
  | nil =>
    simp only [splitCL, List.mem_singleton] at ht
    subst ht; simp
  | cons c cs ih =>
    unfold splitCL at ht
    split at ht
    · rcases List.mem_cons.mp ht with h1 | h2
      · subst h1; simp
      · exact ih t h2
    · rename_i hc
      match h : splitCL cs with
      | [] => exact absurd h (splitCL_ne_nil cs)
      | u :: us =>
        rw [h] at ht
        rcases List.mem_cons.mp ht with h1 | h2
        · subst h1
          intro hmem
          rcases List.mem_cons.mp hmem with h3 | h4
          · exact hc h3.symm
          · exact ih u (h ▸ List.mem_cons_self u us) h4
        · exact ih t (h ▸ List.mem_cons_of_mem u h2)

theorem flatten_map_singleton (l : List (List Char)) :
    (l.map (fun x => [x])).flatten = l := by
  induction l with
  | nil => rfl
  | cons x xs ih => simp only [List.map_cons, List.flatten_cons, List.singleton_append, ih]

theorem splitCL_joinCL (ls : List (List Char)) (h : ls ≠ []) :
    splitCL (joinCL ls) = (ls.map splitCL).flatten := by
  induction ls with
  | nil => exact absurd rfl h
  | cons x xs ih =>
    match xs with
    | [] => simp [joinCL]
    | y :: ys =>
      have hxs : (y :: ys : List (List Char)) ≠ [] := by simp
      calc splitCL (joinCL (x :: y :: ys))
          = splitCL (x ++ ',' :: joinCL (y :: ys)) := rfl
        _ = splitCL x ++ splitCL (joinCL (y :: ys)) := splitCL_append_comma _ _
        _ = splitCL x ++ ((y :: ys).map splitCL).flatten := by rw [ih hxs]
        _ = ((x :: y :: ys).map splitCL).flatten := by simp

theorem splitCL_joinCL_of_no_comma (ls : List (List Char)) (h : ls ≠ [])
    (hc : ∀ l ∈ ls, ',' ∉ l) : splitCL (joinCL ls) = ls := by
  rw [splitCL_joinCL ls h]
  have hmap : ls.map splitCL = ls.map (fun l => [l]) := by
    apply List.map_congr_left
    intro l hl
    exact splitCL_of_no_comma l (hc l hl)
  rw [hmap, flatten_map_singleton]

theorem pySplit_ne_nil (s : String) : pySplit s ≠ [] := by
  unfold pySplit
  intro h
  exact splitCL_ne_nil s.data (List.map_eq_nil_iff.mp h)

theorem mem_pySplit_no_comma (s : String) (t : String) (ht : t ∈ pySplit s) :
    ',' ∉ t.data := by
  unfold pySplit at ht
  rcases List.mem_map.mp ht with ⟨u, hu, he⟩
  subst he
  exact mem_splitCL_no_comma s.data u hu

theorem pySplit_pyJoin (L : List String) (h : L ≠ []) (hc : ∀ s ∈ L, ',' ∉ s.data) :
    pySplit (pyJoin L) = L := by
  unfold pySplit pyJoin
  have hmap : (L.map String.data) ≠ [] := by
    intro hnil; exact h (List.map_eq_nil_iff.mp hnil)
  have hcl : ∀ l ∈ L.map String.data, ',' ∉ l := by
    intro l hl
    rcases List.mem_map.mp hl with ⟨s, hs, he⟩
    subst he; exact hc s hs
  rw [show (String.mk (joinCL (L.map String.data))).data = joinCL (L.map String.data) from rfl]
  rw [splitCL_joinCL_of_no_comma _ hmap hcl]
  rw [List.map_map]
  have hco : (String.mk ∘ String.data) = (id : String → String) := by
    funext s; rfl
  rw [hco, List.map_id]

theorem pySplit_pyJoin_flatten (L : List String) (h : L ≠ []) :
    pySplit (pyJoin L) = (L.map pySplit).flatten := by
  unfold pySplit pyJoin
  have hmap : (L.map String.data) ≠ [] := by
    intro hnil; exact h (List.map_eq_nil_iff.mp hnil)
  rw [show (String.mk (joinCL (L.map String.data))).data = joinCL (L.map String.data) from rfl]
  rw [splitCL_joinCL _ hmap]
  rw [List.map_flatten, List.map_map, List.map_map]
  rfl

theorem pyJoin_singleton (s : String) : pyJoin [s] = s := rfl

theorem charListLe_total (a b : List Char) :
    charListLe a b = true ∨ charListLe b a = true := by
  induction a generalizing b with
  | nil => left; rfl
  | cons x xs ih =>
    match b with
    | [] => right; rfl
    | y :: ys =>
      rcases lt_trichotomy x y with h | h | h
      · left; simp [charListLe, if_pos h]
      · subst h
        have hnx : ¬ x < x := lt_irrefl x
        rcases ih ys with h1 | h1
        · left; simp [charListLe, if_neg hnx, h1]
        · right; simp [charListLe, if_neg hnx, h1]
      · right; simp [charListLe, if_pos h]

theorem strLe_total (a b : String) : strLe a b = true ∨ strLe b a = true :=
  charListLe_total a.data b.data

/-- The hour field is sorted when consecutive tokens satisfy `strLe`. -/
def StrSorted (l : List String) : Prop := List.Chain' (fun a b => strLe a b = true) l

theorem insertStr_perm (x : String) (l : List String) :
    (insertStr x l).Perm (x :: l) := by
  induction l with
  | nil => exact List.Perm.refl _
  | cons y ys ih =>
    unfold insertStr
    split
    · exact List.Perm.refl _
    · exact (List.Perm.cons y ih).trans (List.Perm.swap x y ys)

theorem sortStrings_perm (l : List String) : (sortStrings l).Perm l := by
  induction l with
  | nil => exact List.Perm.refl _
  | cons x xs ih =>
    unfold sortStrings
    exact (insertStr_perm x (sortStrings xs)).trans (List.Perm.cons x ih)

theorem insertStr_sorted (x : String) (l : List String) (h : StrSorted l) :
    StrSorted (insertStr x l) := by
  induction l with
  | nil => exact List.chain'_singleton x
  | cons y ys ih =>
    unfold insertStr
    by_cases hxy : strLe x y = true
    · rw [if_pos hxy]
      exact List.chain'_cons.mpr ⟨hxy, h⟩
    · rw [if_neg hxy]
      have hyx : strLe y x = true := by
        rcases strLe_total x y with h1 | h1
        · exact absurd h1 hxy
        · exact h1
      match ys, h, ih with
      | [], _, _ => exact List.chain'_cons.mpr ⟨hyx, List.chain'_singleton x⟩
      | w :: ws, h, ih =>
        have htail : StrSorted (w :: ws) := (List.chain'_cons.mp h).2
        have hins := ih htail
        by_cases hxw : strLe x w = true
        · rw [show insertStr x (w :: ws) = x :: w :: ws from by
            unfold insertStr; rw [if_pos hxw]]
          exact List.chain'_cons.mpr ⟨hyx, List.chain'_cons.mpr ⟨hxw, htail⟩⟩
        · have hstep : insertStr x (w :: ws) = w :: insertStr x ws := by
            rw [insertStr, if_neg hxw]
          rw [hstep]
          rw [hstep] at hins
          exact List.chain'_cons.mpr ⟨(List.chain'_cons.mp h).1, hins⟩

theorem sortStrings_sorted (l : List String) : StrSorted (sortStrings l) := by
  induction l with
  | nil => exact List.chain'_nil
  | cons x xs ih => exact insertStr_sorted x (sortStrings xs) ih

theorem insertStr_of_head_le (x : String) (l : List String) (h : StrSorted (x :: l)) :
    insertStr x l = x :: l := by
  match l with
  | [] => rfl
  | y :: ys =>
    have hxy : strLe x y = true := (List.chain'_cons.mp h).1
    unfold insertStr
    rw [if_pos hxy]

theorem sortStrings_of_sorted (l : List String) (h : StrSorted l) :
    sortStrings l = l := by
  induction l with
  | nil => rfl
  | cons x xs ih =>
    unfold sortStrings
    rw [ih h.tail]
    exact insertStr_of_head_le x xs h

theorem sortStrings_idem (l : List String) :
    sortStrings (sortStrings l) = sortStrings l :=
  sortStrings_of_sorted _ (sortStrings_sorted l)

/-! ### The canonical stored form of an hour field -/

/-- `','.join(sorted(hour.split(',')))` — the expression the `Group`
constructor stores in `self.hour`. -/
def canonHour (hour : String) : String := pyJoin (sortStrings (pySplit hour))

theorem canonHour_tokens (h : String) :
    pySplit (canonHour h) = sortStrings (pySplit h) := by
  unfold canonHour
  apply pySplit_pyJoin
  · intro hnil
    have := (sortStrings_perm (pySplit h)).length_eq
    rw [hnil] at this
    exact pySplit_ne_nil h (List.length_eq_zero.mp this.symm)
  · intro s hs
    exact mem_pySplit_no_comma h s ((sortStrings_perm (pySplit h)).mem_iff.mp hs)

theorem canonHour_idem (h : String) : canonHour (canonHour h) = canonHour h := by
  have h1 : canonHour (canonHour h) = pyJoin (sortStrings (pySplit (canonHour h))) := rfl
  rw [h1, canonHour_tokens, sortStrings_idem]
  rfl

theorem canonHour_sorted (h : String) : StrSorted (pySplit (canonHour h)) := by
  rw [canonHour_tokens]
  exact sortStrings_sorted _

theorem canonHour_tokens_perm (h : String) :
    (pySplit (canonHour h)).Perm (pySplit h) := by
  rw [canonHour_tokens]
  exact sortStrings_perm _

/-! ### First-encounter-order deduplication (Python `dict` key order) -/

/-- Keys of a Python `dict` built by repeated insertion appear in
first-encounter order with duplicates dropped. -/
def dedupFirst {α : Type} [DecidableEq α] : List α → List α
  | [] => []
  | x :: xs => x :: (dedupFirst xs).filter (fun y => decide (y ≠ x))

theorem mem_dedupFirst {α : Type} [DecidableEq α] (a : α) (l : List α) :
    a ∈ dedupFirst l ↔ a ∈ l := by
  induction l with
  | nil => rfl
  | cons x xs ih =>
    unfold dedupFirst
    constructor
    · intro h
      rcases List.mem_cons.mp h with h1 | h2
      · exact h1 ▸ List.mem_cons_self x xs
      · exact List.mem_cons_of_mem x (ih.mp (List.mem_of_mem_filter h2))
    · intro h
      rcases List.mem_cons.mp h with h1 | h2
      · exact h1 ▸ List.mem_cons_self x _
      · by_cases hax : a = x
        · exact hax ▸ List.mem_cons_self x _
        · exact List.mem_cons_of_mem x
            (List.mem_filter.mpr ⟨ih.mpr h2, by simpa using hax⟩)

theorem dedupFirst_nodup {α : Type} [DecidableEq α] (l : List α) :
    (dedupFirst l).Nodup := by
  induction l with
  | nil => exact List.nodup_nil
  | cons x xs ih =>
    unfold dedupFirst
    apply List.Nodup.cons
    · intro hmem
      have := (List.mem_filter.mp hmem).2
      simp at this
    · exact ih.filter _

theorem dedupFirst_of_nodup {α : Type} [DecidableEq α] (l : List α) (h : l.Nodup) :
    dedupFirst l = l := by
  induction l with
  | nil => rfl
  | cons x xs ih =>
    unfold dedupFirst
    rw [ih (List.Nodup.of_cons h)]
    congr 1
    apply List.filter_eq_self.mpr
    intro a ha
    have hax : a ≠ x := by
      intro he
      exact (List.nodup_cons.mp h).1 (he ▸ ha)
    simpa using hax

/-! ### Numeric and date parsing (`int`, `float`, `datetime.strptime`) -/

/-- Digit value of an ASCII digit character. -/
def charDigit (c : Char) : Nat := c.toNat - 48

/-- Value of a nonempty all-digit character list. -/
def natOfDigits (cs : List Char) : Nat := cs.foldl (fun acc c => acc * 10 + charDigit c) 0

/-- Whether every character is an ASCII digit. -/
def allDigits (cs : List Char) : Bool := cs.all Char.isDigit

/-- Python `int(s)`: optional sign followed by at least one digit
(whitespace/underscore refinements of CPython are not exercised here). -/
def pyParseInt (s : String) : Option Int :=
  match s.data with
  | '-' :: rest =>
    if rest ≠ [] ∧ allDigits rest then some (-(natOfDigits rest : Int)) else none
  | '+' :: rest =>
    if rest ≠ [] ∧ allDigits rest then some (natOfDigits rest : Int) else none
  | cs =>
    if cs ≠ [] ∧ allDigits cs then some (natOfDigits cs : Int) else none

/-- Python `int(float(s))` for a decimal literal `[sign] digits [. digits]`
(truncation toward zero keeps only the integer part). -/
def pyFloatTrunc (s : String) : Option Int :=
  let core (cs : List Char) : Option Nat :=
    let intPart := cs.takeWhile (fun c => c ≠ '.')
    let rest := cs.dropWhile (fun c => c ≠ '.')
    match rest with
    | [] => if intPart ≠ [] ∧ allDigits intPart then some (natOfDigits intPart) else none
    | _ :: frac =>
      if allDigits intPart ∧ allDigits frac ∧ (intPart ≠ [] ∨ frac ≠ []) then
        some (natOfDigits intPart)
      else none
  match s.data with
  | '-' :: rest => (core rest).map (fun n => -(n : Int))
  | '+' :: rest => (core rest).map (fun n => (n : Int))
  | cs => (core cs).map (fun n => (n : Int))

/-- The `%H` pattern of `strptime`: `2[0-3] | [0-1]\d | \d` (greedy). -/
def matchHH : List Char → Option (Nat × List Char)
  | [] => none
  | c :: rest =>
    if c = '2' then
      match rest with
      | d :: rest2 => if '0' ≤ d ∧ d ≤ '3' then some (20 + charDigit d, rest2) else some (2, rest)
      | [] => some (2, [])
    else if c = '0' ∨ c = '1' then
      match rest with
      | d :: rest2 => if d.isDigit then some (charDigit c * 10 + charDigit d, rest2)
                      else some (charDigit c, rest)
      | [] => some (charDigit c, [])
    else if c.isDigit then some (charDigit c, rest)
    else none

/-- The `%M` pattern of `strptime`: `[0-5]\d | \d` (greedy). -/
def matchMM : List Char → Option (Nat × List Char)
  | [] => none
  | c :: rest =>
    if '0' ≤ c ∧ c ≤ '5' then
      match rest with
      | d :: rest2 => if d.isDigit then some (charDigit c * 10 + charDigit d, rest2)
                      else some (charDigit c, rest)
      | [] => some (charDigit c, [])
    else if c.isDigit then some (charDigit c, rest)
    else none

/-- `datetime.strptime(s, "%H%M")`, reduced to the (hour, minute) pair. -/
def parseHHMM (s : String) : Option (Nat × Nat) :=
  match matchHH s.data with
  | none => none
  | some (hh, rest) =>
    match matchMM rest with
    | none => none
    | some (mm, rest2) => if rest2 = [] then some (hh, mm) else none

/-- Gregorian leap year. -/
def isLeap (y : Nat) : Bool := (y % 4 = 0 ∧ y % 100 ≠ 0) ∨ y % 400 = 0

/-- Days in a month. -/
def daysInMonth (y m : Nat) : Nat :=
  if m = 2 then (if isLeap y then 29 else 28)
  else if m = 4 ∨ m = 6 ∨ m = 9 ∨ m = 11 then 30
  else 31

/-- Day number of a calendar date (days since 0000-03-01, Gregorian), the
`Nat` embedding of a midnight `datetime`: adding one day is `+ 1` and
`datetime` comparison is `Nat` order. -/
def rataDie (y m d : Nat) : Nat :=
  let y2 := if m ≤ 2 then y - 1 else y
  let era := y2 / 400
  let yoe := y2 % 400
  let mp := (m + 9) % 12
  let doy := (153 * mp + 2) / 5 + (d - 1)
  let doe := yoe * 365 + yoe / 4 - yoe / 100 + doy
  era * 146097 + doe

/-- The `%Y` pattern of `strptime`: exactly four digits. -/
def matchYear : List Char → Option (Nat × List Char)
  | a :: b :: c :: d :: rest =>
    if allDigits [a, b, c, d] then some (natOfDigits [a, b, c, d], rest) else none
  | _ => none

/-- The `%m` pattern of `strptime`: `1[0-2] | 0[1-9] | [1-9]` (greedy). -/
def matchMonth : List Char → Option (Nat × List Char)
  | [] => none
  | c :: rest =>
    if c = '1' then
      match rest with
      | d :: rest2 => if '0' ≤ d ∧ d ≤ '2' then some (10 + charDigit d, rest2) else some (1, rest)
      | [] => some (1, [])
    else if c = '0' then
      match rest with
      | d :: rest2 => if '1' ≤ d ∧ d ≤ '9' then some (charDigit d, rest2) else none
      | [] => none
    else if c.isDigit then some (charDigit c, rest)
    else none

/-- The `%d` pattern of `strptime`: `3[01] | [1-2]\d | 0[1-9] | [1-9]` (greedy). -/
def matchDay : List Char → Option (Nat × List Char)
  | [] => none
  | c :: rest =>
    if c = '3' then
      match rest with
      | d :: rest2 => if d = '0' ∨ d = '1' then some (30 + charDigit d, rest2) else some (3, rest)
      | [] => some (3, [])
    else if c = '1' ∨ c = '2' then
      match rest with
      | d :: rest2 => if d.isDigit then some (charDigit c * 10 + charDigit d, rest2)
                      else some (charDigit c, rest)
      | [] => some (charDigit c, [])
    else if c = '0' then
      match rest with
      | d :: rest2 => if '1' ≤ d ∧ d ≤ '9' then some (charDigit d, rest2) else none
      | [] => none
    else if c.isDigit then some (charDigit c, rest)
    else none

/-- `datetime.strptime(s, '%Y-%m-%d')`, reduced to the date's day number;
`datetime` itself rejects out-of-range days (e.g. February 30) and year 0. -/
def parseDate (s : String) : Option Nat :=
  match matchYear s.data with
  | none => none
  | some (y, rest) =>
    match rest with
    | '-' :: rest2 =>
      match matchMonth rest2 with
      | none => none
      | some (m, rest3) =>
        match rest3 with
        | '-' :: rest4 =>
          match matchDay rest4 with
          | none => none
          | some (d, rest5) =>
            if rest5 = [] ∧ 1 ≤ y ∧ d ≤ daysInMonth y m then some (rataDie y m d) else none
        | _ => none
    | _ => none

/-! ### Record model: `Group`, `Course`, `Courses` -/

/-- `Group.__init__`: the constructor stores the hour field as
`','.join(sorted(hour.split(',')))`. -/
structure GroupRec where
  number : Int
  week_day : String
  room : String
  course_length : Int
  frequency : String
  hour : String
deriving DecidableEq

/-- Constructing a `Group(number, week_day, room, course_length, frequency, hour)`. -/
def mkGroup (number : Int) (week_day room : String) (course_length : Int)
    (frequency hour : String) : GroupRec :=
  { number, week_day, room, course_length, frequency, hour := canonHour hour }

/-- The merge key `(group.week_day, group.room, group.frequency)`. -/
def gKey (g : GroupRec) : String × String × String := (g.week_day, g.room, g.frequency)

/-- `merged_groups[key]` after the accumulation loop: the summed
`course_length` of the groups sharing `key`, in list order. -/
def sumLen (l : List GroupRec) (k : String × String × String) : Int :=
  ((l.filter (fun g => decide (gKey g = k))).map (fun g => g.course_length)).sum

/-- `hour_map[key]` after the accumulation loop: the `hour` fields of the
groups sharing `key`, in list order. -/
def hoursFor (l : List GroupRec) (k : String × String × String) : List String :=
  (l.filter (fun g => decide (gKey g = k))).map (fun g => g.hour)

/-- `Course._merge_group_type` on one group-number bucket: one merged
`Group` per distinct `(week_day, room, frequency)` key, keys in
first-encounter order (Python `defaultdict` iteration order). -/
def mergeBucket (number : Int) (l : List GroupRec) : List GroupRec :=
  (dedupFirst (l.map gKey)).map
    (fun k => mkGroup number k.1 k.2.1 (sumLen l k) k.2.2 (pyJoin (hoursFor l k)))

/-- A `Dict[int, List[Group]]` with Python-`dict` insertion order. -/
abbrev BucketMap : Type := List (Int × List GroupRec)

/-- `Course._merge_group_type` applied to every bucket of the mapping. -/
def mergeGroupsMap (b : BucketMap) : BucketMap :=
  b.map (fun p => (p.1, mergeBucket p.1 p.2))

/-- `dict.get(n)` on a bucket map (also `defaultdict.get`, which inserts
nothing). -/
def lookupB (b : BucketMap) (n : Int) : Option (List GroupRec) :=
  (b.find? (fun p => decide (p.1 = n))).map (fun p => p.2)

/-- `defaultdict(list)[n].append(g)`: append to the existing bucket, or
create the bucket at the end of the insertion order. -/
def appendB (b : BucketMap) (n : Int) (g : GroupRec) : BucketMap :=
  match b with
  | [] => [(n, [g])]
  | (m, gs) :: rest => if m = n then (m, gs ++ [g]) :: rest else (m, gs) :: appendB rest n g

/-- The `Course` record. -/
structure CourseRec where
  sigle : String
  name : String
  nb_credit : Int
  theo_groups : BucketMap
  lab_groups : BucketMap
deriving DecidableEq

/-- `Course.__init__(sigle, name, nb_credit)`. -/
def mkCourse (sigle name : String) (nb_credit : Int) : CourseRec :=
  { sigle, name, nb_credit, theo_groups := [], lab_groups := [] }

/-- `Course.merge_groups`: re-merge both bucket mappings. -/
def mergeCourse (c : CourseRec) : CourseRec :=
  { c with theo_groups := mergeGroupsMap c.theo_groups,
           lab_groups := mergeGroupsMap c.lab_groups }

/-- `Course.add_group`: route by the lower-cased group-type string, then
re-merge. -/
def addGroup (c : CourseRec) (group_type : String) (g : GroupRec) : CourseRec :=
  let c2 :=
    if pyLower group_type = "c" then
      { c with theo_groups := appendB c.theo_groups g.number g }
    else if pyLower group_type = "l" then
      { c with lab_groups := appendB c.lab_groups g.number g }
    else c
  mergeCourse c2

/-- `Course.get_specific_group`. -/
def getSpecificGroup (c : CourseRec) (group_type : String) (group_number : Int) :
    Option (List GroupRec) :=
  if pyLower group_type = "c" then lookupB c.theo_groups group_number
  else if pyLower group_type = "l" then lookupB c.lab_groups group_number
  else none

/-- The `Courses` registry (`Dict[str, Course]`, insertion-ordered). -/
abbrev Registry : Type := List (String × CourseRec)

/-- `dict.get(sigle)` on the registry. -/
def getCourseReg (reg : Registry) (sigle : String) : Option CourseRec :=
  (reg.find? (fun p => decide (p.1 = sigle))).map (fun p => p.2)

/-- `self.courses[sigle] = f(self.courses[sigle])` for a present key. -/
def updateReg (reg : Registry) (sigle : String) (f : CourseRec → CourseRec) : Registry :=
  reg.map (fun p => if p.1 = sigle then (p.1, f p.2) else p)

/-- One iteration of the row loop of `Courses.read_csv_files`.  Rows with
fewer than 15 fields are skipped; 15 fields are unpacked positionally; more
than 15 fields make the unpacking raise an uncaught `ValueError`; empty
required fields and numeric parse failures skip the row. -/
def readRowsStep (reg : Registry) (row : List String) : Except String Registry :=
  if row.length < 15 then .ok reg
  else
    match row with
    | [_, sigle, number, nb_credit, _, _, room, period_type, _, week_nb,
       course_type, name, _, week_day, hour] =>
      if sigle = "" ∨ number = "" ∨ nb_credit = "" ∨ room = "" ∨ period_type = "" ∨
         course_type = "" ∨ name = "" ∨ week_day = "" ∨ hour = "" then
        .ok reg
      else
        match pyParseInt number, pyFloatTrunc (pyReplaceCommaDot nb_credit) with
        | some n, some credit =>
          let frequency := if week_nb = "I" then "B1"
                           else if week_nb = "P" then "B2"
                           else "every_week"
          let reg2 := if (getCourseReg reg sigle).isSome then reg
                      else reg ++ [(sigle, mkCourse sigle name credit)]
          let g := mkGroup n week_day room 1 frequency hour
          .ok (updateReg reg2 sigle (fun c => addGroup c (pyLower period_type) g))
        | _, _ => .ok reg
    | _ => .error "ValueError: too many values to unpack (expected 15)"

/-- The whole row loop of `Courses.read_csv_files` (header already consumed). -/
def readCsvRows (reg : Registry) : List (List String) → Except String Registry
  | [] => .ok reg
  | r :: rs =>
    match readRowsStep reg r with
    | .error e => .error e
    | .ok reg2 => readCsvRows reg2 rs

/-- One entry of the alternance map: upper-cased stripped weekday name and
week type. -/
structure Alternance where
  day_name : String
  week_type : String
deriving DecidableEq

/-- The alternance map (`Dict[datetime, ...]`, insertion-ordered; dates are
day numbers). -/
abbrev AltMap : Type := List (Nat × Alternance)

/-- `week_map[date] = entry` (replace in place, else append). -/
def updateA (m : AltMap) (d : Nat) (e : Alternance) : AltMap :=
  if (m.find? (fun p => decide (p.1 = d))).isSome then
    m.map (fun p => if p.1 = d then (p.1, e) else p)
  else m ++ [(d, e)]

/-- `alternance_map.get(date)`. -/
def lookupA (m : AltMap) (d : Nat) : Option Alternance :=
  (m.find? (fun p => decide (p.1 = d))).map (fun p => p.2)

/-- One iteration of the row loop of `Courses.read_alternance_csv`.  Rows
with fewer than 3 fields are skipped; exactly 3 are unpacked; more than 3
raise an uncaught `ValueError`; an unparsable date skips the row. -/
def altRowStep (m : AltMap) (row : List String) : Except String AltMap :=
  if row.length < 3 then .ok m
  else
    match row with
    | [date_str, day_name, week_type] =>
      match parseDate date_str with
      | none => .ok m
      | some d =>
        .ok (updateA m d { day_name := pyUpper (pyStrip day_name),
                           week_type := pyUpper (pyStrip week_type) })
    | _ => .error "ValueError: too many values to unpack (expected 3)"

/-- The whole row loop of `Courses.read_alternance_csv`. -/
def readAltRows (m : AltMap) : List (List String) → Except String AltMap
  | [] => .ok m
  | r :: rs =>
    match altRowStep m r with
    | .error e => .error e
    | .ok m2 => readAltRows m2 rs

/-! ### Calendar expansion (`generate_ics_file`) -/

/-- `FULL_DAY_TO_ABBREVIATION`. -/
def FULL_DAY_TO_ABBREVIATION : List (String × String) :=
  [("LUNDI", "LUN"), ("MARDI", "MAR"), ("MERCREDI", "MER"), ("JEUDI", "JEU"),
   ("VENDREDI", "VEN"), ("SAMEDI", "SAM"), ("DIMANCHE", "DIM")]

/-- `FULL_DAY_TO_ABBREVIATION.get(full_day_name, full_day_name)`. -/
def abbrLookup (full_day_name : String) : String :=
  ((FULL_DAY_TO_ABBREVIATION.find? (fun p => decide (p.1 = full_day_name))).map
    (fun p => p.2)).getD full_day_name

/-- `datetime(2024, 10, 1)`, the hard-coded school-calendar exception. -/
def exceptionDate : Nat := rataDie 2024 10 1

/-- The day abbreviation the loop body resolves for a day that has an
alternance entry: the table lookup, overridden to `"LUN"` on the
exception date. -/
def resolvedAbbr (d : Nat) (info : Alternance) : String :=
  if d = exceptionDate then "LUN" else abbrLookup info.day_name

/-- The emission test of the loop body:
`day_abbr == group.week_day.upper() and (frequency == "every_week" or ...)`. -/
def emitCond (g : GroupRec) (d : Nat) (info : Alternance) : Bool :=
  let frequency := pyLower g.frequency
  resolvedAbbr d info == pyUpper g.week_day &&
    (frequency == "every_week" ||
     (frequency == "b1" && info.week_type == "B1") ||
     (frequency == "b2" && info.week_type == "B2"))

/-- An emitted calendar event: begin time is the day number plus the parsed
hour/minute, localized to the fixed `pytz` zone; the single alarm is the
`-30`-minute display trigger. -/
structure Event where
  name : String
  beginDate : Nat
  beginHour : Nat
  beginMinute : Nat
  tz : String
  durationHours : Nat
  location : String
  alarmTriggersMinutes : List Int
deriving DecidableEq

/-- `'COURS' if group_type == 'c' else 'LAB'` (exact, case-sensitive test). -/
def mkLabel (group_type : String) : String := if group_type = "c" then "COURS" else "LAB"

/-- `f"{course.sigle} - {course.name} - Groupe {group.number} ({label})"`. -/
def mkTitle (sigle name : String) (number : Int) (label : String) : String :=
  sigle ++ " - " ++ name ++ " - Groupe " ++ toString number ++ " (" ++ label ++ ")"

/-- The loop body of `generate_ics_file` for one calendar day: skip days
without an alternance entry; on a matching day, parse the first hour token
(`strptime` raises on failure) and build the event. -/
def dayEventE (sigle cname group_type : String) (g : GroupRec) (amap : AltMap)
    (d : Nat) : Except String (Option Event) :=
  match lookupA amap d with
  | none => .ok none
  | some info =>
    if emitCond g d info then
      match parseHHMM ((pySplit g.hour).headD "") with
      | none => .error "ValueError: time data does not match format %H%M"
      | some (hh, mm) =>
        .ok (some
          { name := mkTitle sigle cname g.number (mkLabel group_type),
            beginDate := d, beginHour := hh, beginMinute := mm,
            tz := "America/Toronto",
            durationHours := (pySplit g.hour).length,
            location := g.room,
            alarmTriggersMinutes := [-30] })
    else .ok none

/-- The same loop body when `strptime` is known not to raise. -/
def dayEventPure (sigle cname group_type : String) (g : GroupRec) (amap : AltMap)
    (d : Nat) : Option Event :=
  match lookupA amap d with
  | none => none
  | some info =>
    if emitCond g d info then
      match parseHHMM ((pySplit g.hour).headD "") with
      | none => none
      | some (hh, mm) =>
        some
          { name := mkTitle sigle cname g.number (mkLabel group_type),
            beginDate := d, beginHour := hh, beginMinute := mm,
            tz := "America/Toronto",
            durationHours := (pySplit g.hour).length,
            location := g.room,
            alarmTriggersMinutes := [-30] }
    else none

/-- Run the loop body over a list of days, collecting events and
propagating an uncaught exception. -/
def collectDays (f : Nat → Except String (Option Event)) : List Nat → Except String (List Event)
  | [] => .ok []
  | d :: ds =>
    match f d with
    | .error e => .error e
    | .ok oe =>
      match collectDays f ds with
      | .error e => .error e
      | .ok rest => .ok (oe.toList ++ rest)

/-- `while current_date <= semester_end_date` starting at the start date:
the inclusive day range. -/
def semRange (start stop : Nat) : List Nat := List.range' start (stop + 1 - start)

/-- The per-`Group` date loop of `generate_ics_file`. -/
def expandGroup (sigle cname group_type : String) (g : GroupRec) (amap : AltMap)
    (start stop : Nat) : Except String (List Event) :=
  collectDays (dayEventE sigle cname group_type g amap) (semRange start stop)

/-- The `for group in groups` loop. -/
def collectGroups (sigle cname group_type : String) (amap : AltMap) (start stop : Nat) :
    List GroupRec → Except String (List Event)
  | [] => .ok []
  | g :: gs =>
    match expandGroup sigle cname group_type g amap start stop with
    | .error e => .error e
    | .ok evs =>
      match collectGroups sigle cname group_type amap start stop gs with
      | .error e => .error e
      | .ok rest => .ok (evs ++ rest)

/-- One `(group_type, group_number)` selection entry for an already-found
course: `get_specific_group` resolving to nothing contributes nothing. -/
def entryEvents (course : CourseRec) (group_type : String) (group_number : Int)
    (amap : AltMap) (start stop : Nat) : Except String (List Event) :=
  match getSpecificGroup course group_type group_number with
  | none => .ok []
  | some groups => collectGroups course.sigle course.name group_type amap start stop groups

/-- The `for group_number in group_numbers` loop. -/
def numbersEvents (course : CourseRec) (group_type : String) (amap : AltMap)
    (start stop : Nat) : List Int → Except String (List Event)
  | [] => .ok []
  | n :: ns =>
    match entryEvents course group_type n amap start stop with
    | .error e => .error e
    | .ok evs =>
      match numbersEvents course group_type amap start stop ns with
      | .error e => .error e
      | .ok rest => .ok (evs ++ rest)

/-- The `for group_type, group_numbers in group_selection.items()` loop. -/
def typesEvents (course : CourseRec) (amap : AltMap) (start stop : Nat) :
    List (String × List Int) → Except String (List Event)
  | [] => .ok []
  | (gt, ns) :: rest =>
    match numbersEvents course gt amap start stop ns with
    | .error e => .error e
    | .ok evs =>
      match typesEvents course amap start stop rest with
      | .error e => .error e
      | .ok more => .ok (evs ++ more)

/-- One course of the selection: a course code absent from the registry
contributes nothing. -/
def courseEvents (reg : Registry) (course_code : String)
    (group_selection : List (String × List Int)) (amap : AltMap) (start stop : Nat) :
    Except String (List Event) :=
  match getCourseReg reg course_code with
  | none => .ok []
  | some course => typesEvents course amap start stop group_selection

/-- The outer selection loop. -/
def selectionEvents (reg : Registry) (amap : AltMap) (start stop : Nat) :
    List (String × List (String × List Int)) → Except String (List Event)
  | [] => .ok []
  | (code, gsel) :: rest =>
    match courseEvents reg code gsel amap start stop with
    | .error e => .error e
    | .ok evs =>
      match selectionEvents reg amap start stop rest with
      | .error e => .error e
      | .ok more => .ok (evs ++ more)

/-- `generate_ics_file` up to serialization: the semester range is
`[min, max]` of the alternance-map keys (an empty map raises `IndexError`
at `semester_dates[0]`). -/
def generateEvents (reg : Registry)
    (courses_to_convert : List (String × List (String × List Int)))
    (amap : AltMap) : Except String (List Event) :=
  match amap.map (fun p => p.1) with
  | [] => .error "IndexError: list index out of range"
  | k :: ks =>
    selectionEvents reg amap (ks.foldl min k) (ks.foldl max k) courses_to_convert

/-! ### Merge lemmas -/

theorem gKey_mkGroup (n : Int) (a b : String) (s : Int) (f h : String) :
    gKey (mkGroup n a b s f h) = (a, b, f) := rfl

theorem mkGroup_hour (n : Int) (a b : String) (s : Int) (f h : String) :
    (mkGroup n a b s f h).hour = canonHour h := rfl

theorem mkGroup_recanon (n : Int) (a b : String) (s : Int) (f h : String) :
    mkGroup n a b s f ((mkGroup n a b s f h).hour) = mkGroup n a b s f h := by
  unfold mkGroup
  simp [canonHour_idem]

theorem mergeBucket_map_gKey (n : Int) (l : List GroupRec) :
    (mergeBucket n l).map gKey = dedupFirst (l.map gKey) := by
  unfold mergeBucket
  rw [List.map_map]
  have hco : (gKey ∘ fun k => mkGroup n k.1 k.2.1 (sumLen l k) k.2.2 (pyJoin (hoursFor l k)))
      = id := by
    funext k; rfl
  rw [hco, List.map_id]

theorem filter_map_key (G : String × String × String → GroupRec)
    (hG : ∀ k, gKey (G k) = k) (ks : List (String × String × String))
    (hnd : ks.Nodup) (k : String × String × String) (hk : k ∈ ks) :
    (ks.map G).filter (fun g => decide (gKey g = k)) = [G k] := by
  induction ks with
  | nil => cases hk
  | cons a as ih =>
    rw [List.map_cons, List.filter_cons]
    by_cases hak : a = k
    · subst hak
      rw [if_pos (by simp [hG])]
      have hnil : (as.map G).filter (fun g => decide (gKey g = a)) = [] := by
        apply List.filter_eq_nil_iff.mpr
        intro g hg
        rcases List.mem_map.mp hg with ⟨b, hb, he⟩
        subst he
        have hba : b ≠ a := by
          intro he2
          exact (List.nodup_cons.mp hnd).1 (he2 ▸ hb)
        simp [hG, hba]
      rw [hnil]
    · rw [if_neg (by simp [hG, hak])]
      have hkas : k ∈ as := by
        rcases List.mem_cons.mp hk with h1 | h2
        · exact absurd h1.symm hak
        · exact h2
      exact ih (List.nodup_cons.mp hnd).2 hkas

theorem filter_mergeBucket (n : Int) (l : List GroupRec)
    (k : String × String × String) (hk : k ∈ dedupFirst (l.map gKey)) :
    (mergeBucket n l).filter (fun g => decide (gKey g = k))
      = [mkGroup n k.1 k.2.1 (sumLen l k) k.2.2 (pyJoin (hoursFor l k))] := by
  unfold mergeBucket
  exact filter_map_key
    (fun k => mkGroup n k.1 k.2.1 (sumLen l k) k.2.2 (pyJoin (hoursFor l k)))
    (fun k => rfl) _ (dedupFirst_nodup _) k hk

theorem sumLen_mergeBucket (n : Int) (l : List GroupRec)
    (k : String × String × String) (hk : k ∈ dedupFirst (l.map gKey)) :
    sumLen (mergeBucket n l) k = sumLen l k := by
  show ((((mergeBucket n l).filter (fun g => decide (gKey g = k))).map
    (fun g => g.course_length)).sum) = sumLen l k
  rw [filter_mergeBucket n l k hk]
  simp [mkGroup, sumLen]

theorem hoursFor_mergeBucket (n : Int) (l : List GroupRec)
    (k : String × String × String) (hk : k ∈ dedupFirst (l.map gKey)) :
    hoursFor (mergeBucket n l) k
      = [(mkGroup n k.1 k.2.1 (sumLen l k) k.2.2 (pyJoin (hoursFor l k))).hour] := by
  show (((mergeBucket n l).filter (fun g => decide (gKey g = k))).map
    (fun g => g.hour)) = _
  rw [filter_mergeBucket n l k hk]
  rfl

theorem mergeBucket_idem (n : Int) (l : List GroupRec) :
    mergeBucket n (mergeBucket n l) = mergeBucket n l := by
  have hout : mergeBucket n (mergeBucket n l) =
      (dedupFirst ((mergeBucket n l).map gKey)).map
        (fun k => mkGroup n k.1 k.2.1 (sumLen (mergeBucket n l) k) k.2.2
          (pyJoin (hoursFor (mergeBucket n l) k))) := rfl
  rw [hout, mergeBucket_map_gKey, dedupFirst_of_nodup _ (dedupFirst_nodup _)]
  conv_rhs => rw [show mergeBucket n l = (dedupFirst (l.map gKey)).map
    (fun k => mkGroup n k.1 k.2.1 (sumLen l k) k.2.2 (pyJoin (hoursFor l k))) from rfl]
  apply List.map_congr_left
  intro k hk
  rw [sumLen_mergeBucket n l k hk, hoursFor_mergeBucket n l k hk,
      pyJoin_singleton, mkGroup_recanon]

theorem mergeGroupsMap_idem (b : BucketMap) :
    mergeGroupsMap (mergeGroupsMap b) = mergeGroupsMap b := by
  unfold mergeGroupsMap
  rw [List.map_map]
  apply List.map_congr_left
  intro p _
  simp [mergeBucket_idem]

theorem dedupFirst_replicate (k : String × String × String) (m : Nat) :
    dedupFirst (List.replicate (m + 1) k) = [k] := by
  induction m with
  | zero => rfl
  | succ m ih =>
    show dedupFirst (k :: List.replicate (m + 1) k) = [k]
    unfold dedupFirst
    rw [ih]
    simp [List.filter]

theorem mergeBucket_const_key (n : Int) (k : String × String × String)
    (l : List GroupRec) (hne : l ≠ []) (hall : ∀ g ∈ l, gKey g = k) :
    mergeBucket n l
      = [mkGroup n k.1 k.2.1 ((l.map (fun g => g.course_length)).sum) k.2.2
          (pyJoin (l.map (fun g => g.hour)))] := by
  have hfull : l.filter (fun g => decide (gKey g = k)) = l := by
    apply List.filter_eq_self.mpr
    intro g hg
    simp [hall g hg]
  have hrep : l.map gKey = List.replicate l.length k := by
    have h2 : ∀ x ∈ l.map gKey, x = k := by
      intro x hx
      rcases List.mem_map.mp hx with ⟨g, hg, he⟩
      exact he ▸ hall g hg
    have h3 := List.eq_replicate_of_mem h2
    rwa [List.length_map] at h3
  have hlen : ∃ m, l.length = m + 1 := by
    match l, hne with
    | g :: gs, _ => exact ⟨gs.length, rfl⟩
  rcases hlen with ⟨m, hm⟩
  unfold mergeBucket
  rw [hrep, hm, dedupFirst_replicate, List.map_singleton]
  unfold sumLen hoursFor
  rw [hfull]

/-! ### Expansion-loop lemmas -/

theorem dayEventE_eq_pure (sigle cname group_type : String) (g : GroupRec)
    (amap : AltMap) (d : Nat) (t : Nat × Nat)
    (hp : parseHHMM ((pySplit g.hour).headD "") = some t) :
    dayEventE sigle cname group_type g amap d
      = .ok (dayEventPure sigle cname group_type g amap d) := by
  unfold dayEventE dayEventPure
  split
  · rfl
  · split
    · rw [hp]
    · rfl

theorem collectDays_ok (f : Nat → Except String (Option Event))
    (fp : Nat → Option Event) (ds : List Nat) (h : ∀ d ∈ ds, f d = .ok (fp d)) :
    collectDays f ds = .ok (ds.filterMap fp) := by
  induction ds with
  | nil => rfl
  | cons d ds ih =>
    unfold collectDays
    rw [h d (List.mem_cons_self d ds), ih (fun x hx => h x (List.mem_cons_of_mem d hx))]
    rw [List.filterMap_cons]
    match fp d with
    | none => rfl
    | some e => rfl

theorem dayEventPure_beginDate (sigle cname group_type : String) (g : GroupRec)
    (amap : AltMap) (d : Nat) (e : Event)
    (h : dayEventPure sigle cname group_type g amap d = some e) : e.beginDate = d := by
  unfold dayEventPure at h
  split at h
  · cases h
  · split at h
    · rcases hp : parseHHMM ((pySplit g.hour).headD "") with _ | ⟨hh, mm⟩
      · rw [hp] at h; cases h
      · rw [hp] at h
        cases h
        rfl
    · cases h

theorem dayEventPure_isSome_iff (sigle cname group_type : String) (g : GroupRec)
    (amap : AltMap) (d : Nat) (info : Alternance) (t : Nat × Nat)
    (hl : lookupA amap d = some info)
    (hp : parseHHMM ((pySplit g.hour).headD "") = some t) :
    (dayEventPure sigle cname group_type g amap d).isSome = emitCond g d info := by
  unfold dayEventPure
  split
  · rename_i heq
    rw [hl] at heq
    cases heq
  · rename_i info2 heq
    rw [hl] at heq
    injection heq with heq2
    subst heq2
    by_cases hc : emitCond g d info = true
    · rw [if_pos hc, hp, hc]
      rfl
    · rw [if_neg hc]
      simp only [Bool.not_eq_true] at hc
      rw [hc]
      rfl

theorem mem_semRange (start stop d : Nat) :
    d ∈ semRange start stop ↔ start ≤ d ∧ d ≤ stop := by
  unfold semRange
  rw [List.mem_range'_1]
  omega

/-! ### Claims -/

/-- C7: for the fixed calendar-exception date (October 1 of the reference
year, 2024-10-01), calendar expansion always treats the day's weekday as the
Monday abbreviation "LUN", regardless of the weekday name recorded in the
alternance map. -/
theorem C7_october1_forced_monday (info : Alternance) :
    resolvedAbbr (rataDie 2024 10 1) info = "LUN" := by
  unfold resolvedAbbr exceptionDate
  rw [if_pos rfl]

/-- C4: group merging is idempotent: for every group-number-to-Group-list
mapping (and hence for a whole `Course`), applying the merge transformation
twice yields the same result as applying it once. -/
theorem C4_merge_idempotent (b : BucketMap) (c : CourseRec) :
    mergeGroupsMap (mergeGroupsMap b) = mergeGroupsMap b ∧
    mergeCourse (mergeCourse c) = mergeCourse c := by
  constructor
  · exact mergeGroupsMap_idem b
  · unfold mergeCourse
    simp [mergeGroupsMap_idem]

/-- C5: for every nonempty list of Groups sharing one
`(weekday, room, frequency)` triple within a group number, merging collapses
them into a single Group whose course length is the sum of the collapsed
lengths, and that total is invariant under reordering the input rows. -/
theorem C5_merged_length_is_sum (n : Int) (k : String × String × String)
    (l : List GroupRec) (hne : l ≠ []) (hall : ∀ g ∈ l, gKey g = k) :
    (∃ g, mergeBucket n l = [g] ∧
       g.course_length = (l.map (fun x => x.course_length)).sum) ∧
    ∀ l2, l.Perm l2 →
      ∃ g2, mergeBucket n l2 = [g2] ∧
        g2.course_length = (l.map (fun x => x.course_length)).sum := by
  constructor
  · exact ⟨_, mergeBucket_const_key n k l hne hall, rfl⟩
  · intro l2 hperm
    have hne2 : l2 ≠ [] := by
      intro hnil
      subst hnil
      exact hne hperm.eq_nil
    have hall2 : ∀ g ∈ l2, gKey g = k := fun g hg => hall g (hperm.mem_iff.mpr hg)
    refine ⟨_, mergeBucket_const_key n k l2 hne2 hall2, ?_⟩
    show (l2.map (fun x => x.course_length)).sum = (l.map (fun x => x.course_length)).sum
    exact (hperm.map (fun x => x.course_length)).sum_eq.symm

/-- Concrete input for C5: two one-hour rows of group 2 on the same
weekday/room/frequency. -/
def c5rows : List GroupRec :=
  [mkGroup 2 "LUN" "B-2325" 1 "every_week" "0830",
   mkGroup 2 "LUN" "B-2325" 1 "every_week" "0930"]

/-- Witness for C5 at a concrete input. -/
theorem C5_witness :
    ∃ g, mergeBucket 2 c5rows = [g] ∧
      g.course_length = (c5rows.map (fun x => x.course_length)).sum :=
  (C5_merged_length_is_sum 2 ("LUN", "B-2325", "every_week") c5rows
    (by decide) (by decide)).1

/-- C9: a selection entry whose course code, group type, or group number is
absent from the registry contributes zero events and raises no error. -/
theorem C9_unresolved_selection_is_silent (reg : Registry) (course : CourseRec)
    (gt : String) (n : Int) (code : String) (gsel : List (String × List Int))
    (amap : AltMap) (start stop : Nat) :
    (getCourseReg reg code = none →
      courseEvents reg code gsel amap start stop = .ok []) ∧
    (getSpecificGroup course gt n = none →
      entryEvents course gt n amap start stop = .ok []) ∧
    (pyLower gt ≠ "c" → pyLower gt ≠ "l" →
      entryEvents course gt n amap start stop = .ok []) ∧
    (pyLower gt = "c" → lookupB course.theo_groups n = none →
      entryEvents course gt n amap start stop = .ok []) := by
  refine ⟨?_, ?_, ?_, ?_⟩
  · intro h
    unfold courseEvents
    rw [h]
  · intro h
    unfold entryEvents
    rw [h]
  · intro h1 h2
    unfold entryEvents getSpecificGroup
    rw [if_neg h1, if_neg h2]
  · intro h1 h2
    unfold entryEvents getSpecificGroup
    rw [if_pos h1, h2]

/-- Witness for C9 at concrete inputs: an empty registry and a course with
no groups. -/
theorem C9_witness :
    courseEvents [] "LOG1810" [("c", [2])] [] 0 0 = .ok [] ∧
    entryEvents (mkCourse "LOG1810" "Logique" 3) "x" 2 [] 0 0 = .ok [] := by
  have h := C9_unresolved_selection_is_silent [] (mkCourse "LOG1810" "Logique" 3)
    "x" 2 "LOG1810" [("c", [2])] [] 0 0
  exact ⟨h.1 (by decide), h.2.1 (by decide)⟩

/-- C10: group retrieval is case-insensitive in the group-type argument
("c"/"C" hit the theoretical bucket, "l"/"L" the lab bucket, anything else
gives `None`), but the event title label is "COURS" only for the exact
lowercase selection key "c"; hence a selection keyed "C" emits events from
the theoretical groups titled with the "LAB" label. -/
theorem C10_lookup_case_insensitive_label_exact (course : CourseRec) (n : Int) :
    getSpecificGroup course "c" n = lookupB course.theo_groups n ∧
    getSpecificGroup course "C" n = lookupB course.theo_groups n ∧
    getSpecificGroup course "l" n = lookupB course.lab_groups n ∧
    getSpecificGroup course "L" n = lookupB course.lab_groups n ∧
    (∀ gt : String, pyLower gt ≠ "c" → pyLower gt ≠ "l" →
      getSpecificGroup course gt n = none) ∧
    mkLabel "c" = "COURS" ∧ mkLabel "C" = "LAB" ∧
    (∀ (sigle cname : String) (g : GroupRec) (amap : AltMap) (d : Nat) (e : Event),
      dayEventE sigle cname "C" g amap d = .ok (some e) →
      e.name = mkTitle sigle cname g.number "LAB") := by
  refine ⟨?_, ?_, ?_, ?_, ?_, by decide, by decide, ?_⟩
  · unfold getSpecificGroup
    rw [if_pos (by decide)]
  · unfold getSpecificGroup
    rw [if_pos (by decide)]
  · unfold getSpecificGroup
    rw [if_neg (by decide), if_pos (by decide)]
  · unfold getSpecificGroup
    rw [if_neg (by decide), if_pos (by decide)]
  · intro gt h1 h2
    unfold getSpecificGroup
    rw [if_neg h1, if_neg h2]
  · intro sigle cname g amap d e h
    unfold dayEventE at h
    split at h
    · cases h
    · split at h
      · rcases hp : parseHHMM ((pySplit g.hour).headD "") with _ | ⟨hh, mm⟩
        · rw [hp] at h
          cases h
        · rw [hp] at h
          injection h with h2
          injection h2 with h3
          rw [← h3]
          rfl
      · cases h

/-- Concrete group and map for the C10 witness. -/
def c10g : GroupRec := mkGroup 4 "MAR" "A-532" 1 "every_week" "1330"

/-- Concrete alternance map for the C10 witness (day 200 is a Tuesday). -/
def c10amap : AltMap := [(200, { day_name := "MARDI", week_type := "B2" })]

/-- The event the C10 witness expects: theoretical selection keyed "C" but
titled with the "LAB" label. -/
def c10event : Event :=
  { name := "INF1015 - Programmation - Groupe 4 (LAB)",
    beginDate := 200, beginHour := 13, beginMinute := 30,
    tz := "America/Toronto", durationHours := 1, location := "A-532",
    alarmTriggersMinutes := [-30] }

/-- Witness for C10 at a concrete input. -/
theorem C10_witness :
    getSpecificGroup (mkCourse "INF1015" "Programmation" 3) "C" 2
      = lookupB (mkCourse "INF1015" "Programmation" 3).theo_groups 2 ∧
    getSpecificGroup (mkCourse "INF1015" "Programmation" 3) "x" 2 = none ∧
    c10event.name = mkTitle "INF1015" "Programmation" c10g.number "LAB" := by
  have h := C10_lookup_case_insensitive_label_exact (mkCourse "INF1015" "Programmation" 3) 2
  refine ⟨h.2.1, h.2.2.2.2.1 "x" (by decide) (by decide), ?_⟩
  exact h.2.2.2.2.2.2.2 "INF1015" "Programmation" c10g c10amap 200 c10event (by rfl)

/-- C1: for every selected Group and every day in the semester range that
has an alternance entry, expansion emits an event for that day iff the
resolved day-abbreviation equals the Group's (upper-cased) weekday token and
the frequency test passes: EVERY_WEEK always, B1 only on "B1" days, B2 only
on "B2" days. -/
theorem C1_emission_iff (sigle cname group_type : String) (g : GroupRec)
    (amap : AltMap) (start stop d : Nat) (info : Alternance) (t : Nat × Nat)
    (hp : parseHHMM ((pySplit g.hour).headD "") = some t)
    (hd1 : start ≤ d) (hd2 : d ≤ stop)
    (hl : lookupA amap d = some info) :
    (∃ evs, expandGroup sigle cname group_type g amap start stop = .ok evs ∧
       ∃ e ∈ evs, e.beginDate = d) ↔
    (resolvedAbbr d info = pyUpper g.week_day ∧
      (pyLower g.frequency = "every_week" ∨
       (pyLower g.frequency = "b1" ∧ info.week_type = "B1") ∨
       (pyLower g.frequency = "b2" ∧ info.week_type = "B2"))) := by
  have hexp : expandGroup sigle cname group_type g amap start stop
      = .ok ((semRange start stop).filterMap
          (dayEventPure sigle cname group_type g amap)) :=
    collectDays_ok _ _ _ (fun d2 _ => dayEventE_eq_pure sigle cname group_type g amap d2 t hp)
  constructor
  · rintro ⟨evs, hevs, e, hmem, hbd⟩
    rw [hexp] at hevs
    injection hevs with hevs
    subst hevs
    rcases List.mem_filterMap.mp hmem with ⟨d2, _, hfd2⟩
    have hd2e : e.beginDate = d2 :=
      dayEventPure_beginDate sigle cname group_type g amap d2 e hfd2
    have hdd : d2 = d := by rw [← hbd, hd2e]
    subst hdd
    have hsome : (dayEventPure sigle cname group_type g amap d2).isSome = true := by
      rw [hfd2]
      rfl
    rw [dayEventPure_isSome_iff sigle cname group_type g amap d2 info t hl hp] at hsome
    simp only [emitCond, Bool.and_eq_true, Bool.or_eq_true, beq_iff_eq] at hsome
    exact ⟨hsome.1, or_assoc.mp hsome.2⟩
  · intro hcond
    have hemit : emitCond g d info = true := by
      simp only [emitCond, Bool.and_eq_true, Bool.or_eq_true, beq_iff_eq]
      exact ⟨hcond.1, or_assoc.mpr hcond.2⟩
    refine ⟨_, hexp, ?_⟩
    have hsome : (dayEventPure sigle cname group_type g amap d).isSome = true := by
      rw [dayEventPure_isSome_iff sigle cname group_type g amap d info t hl hp, hemit]
    rcases Option.isSome_iff_exists.mp hsome with ⟨e, he⟩
    exact ⟨e, List.mem_filterMap.mpr ⟨d, (mem_semRange start stop d).mpr ⟨hd1, hd2⟩, he⟩,
      dayEventPure_beginDate sigle cname group_type g amap d e he⟩

/-- Concrete group for the C1 witness. -/
def c1g : GroupRec := mkGroup 2 "LUN" "B-2325" 1 "every_week" "0830"

/-- Concrete alternance map for the C1 witness. -/
def c1amap : AltMap := [(100, { day_name := "LUNDI", week_type := "B1" })]

/-- Witness for C1 at a concrete input. -/
theorem C1_witness :
    (∃ evs, expandGroup "LOG1810" "Logique" "c" c1g c1amap 100 100 = .ok evs ∧
       ∃ e ∈ evs, e.beginDate = 100) ↔
    (resolvedAbbr 100 { day_name := "LUNDI", week_type := "B1" } = pyUpper c1g.week_day ∧
      (pyLower c1g.frequency = "every_week" ∨
       (pyLower c1g.frequency = "b1" ∧ ("B1" : String) = "B1") ∨
       (pyLower c1g.frequency = "b2" ∧ ("B1" : String) = "B2"))) :=
  C1_emission_iff "LOG1810" "Logique" "c" c1g c1amap 100 100 100
    { day_name := "LUNDI", week_type := "B1" } (8, 30)
    (by decide) (by decide) (by decide) (by decide)

/-- The hour field the claim predicts: sorted, comma-joined, and
de-duplicated tokens (this follows the claim's words, for comparison with
the stored field the code computes). -/
def claimedDedupHour (hour : String) : String :=
  pyJoin (dedupFirst (sortStrings (pySplit hour)))

/-- One row-group used in the C3 counterexample. -/
def c3g : GroupRec := mkGroup 1 "LUN" "B-2325" 1 "every_week" "0830"

/-- C3 counterexample: merging two rows with the same hour token stores
"0830,0830" — the constructor sorts but never de-duplicates, so the stored
field differs from the claimed de-duplicated set. -/
theorem C3_counterexample :
    (mergeBucket 1 [c3g, c3g]).map (fun g => g.hour) = ["0830,0830"] ∧
    (mkGroup 1 "LUN" "B-2325" 2 "every_week" "0830,0830").hour = "0830,0830" ∧
    claimedDedupHour "0830,0830" = "0830" ∧
    ("0830,0830" : String) ≠ "0830" := by
  refine ⟨by decide, by decide, by decide, by decide⟩

/-- C3 amended: at construction and after every merge, the stored hour field
is the sorted, comma-joined list of its constituent "HHMM" tokens with
duplicates preserved (a permutation of the constituent tokens, not their
de-duplicated set). -/
theorem C3_hour_sorted_joined (n : Int) (a b : String) (s : Int) (f h : String)
    (l : List GroupRec) (g2 : GroupRec) (hg2 : g2 ∈ mergeBucket n l) :
    (StrSorted (pySplit (mkGroup n a b s f h).hour) ∧
      (pySplit (mkGroup n a b s f h).hour).Perm (pySplit h) ∧
      pyJoin (pySplit (mkGroup n a b s f h).hour) = (mkGroup n a b s f h).hour) ∧
    (StrSorted (pySplit g2.hour) ∧
      (pySplit g2.hour).Perm ((hoursFor l (gKey g2)).map pySplit).flatten ∧
      pyJoin (pySplit g2.hour) = g2.hour) := by
  have hjoin : ∀ x : String, pyJoin (pySplit (canonHour x)) = canonHour x := by
    intro x
    rw [canonHour_tokens]
    rfl
  constructor
  · refine ⟨canonHour_sorted h, canonHour_tokens_perm h, ?_⟩
    rw [mkGroup_hour]
    exact hjoin h
  · unfold mergeBucket at hg2
    rcases List.mem_map.mp hg2 with ⟨k, hkmem, hge⟩
    subst hge
    have hkey : gKey (mkGroup n k.1 k.2.1 (sumLen l k) k.2.2 (pyJoin (hoursFor l k))) = k := rfl
    rw [hkey, mkGroup_hour]
    have hne : hoursFor l k ≠ [] := by
      have hk2 : k ∈ l.map gKey := (mem_dedupFirst k (l.map gKey)).mp hkmem
      rcases List.mem_map.mp hk2 with ⟨g0, hg0, hg0k⟩
      intro hnil
      have : g0.hour ∈ hoursFor l k := by
        unfold hoursFor
        exact List.mem_map.mpr ⟨g0, List.mem_filter.mpr ⟨hg0, by simp [hg0k]⟩, rfl⟩
      rw [hnil] at this
      cases this
    refine ⟨canonHour_sorted _, ?_, hjoin _⟩
    have hperm := canonHour_tokens_perm (pyJoin (hoursFor l k))
    rw [pySplit_pyJoin_flatten (hoursFor l k) hne] at hperm
    exact hperm

/-- Witness for C3 at a concrete input: a merged bucket with two distinct
hours. -/
theorem C3_witness :
    StrSorted (pySplit (mkGroup 2 "LUN" "B-2325" 1 "every_week" "0930,0830").hour) ∧
    (pySplit (mkGroup 2 "LUN" "B-2325" 1 "every_week" "0930,0830").hour).Perm
      (pySplit "0930,0830") ∧
    pyJoin (pySplit (mkGroup 2 "LUN" "B-2325" 1 "every_week" "0930,0830").hour)
      = (mkGroup 2 "LUN" "B-2325" 1 "every_week" "0930,0830").hour :=
  (C3_hour_sorted_joined 2 "LUN" "B-2325" 1 "every_week" "0930,0830"
    c5rows (mkGroup 2 "LUN" "B-2325" 2 "every_week" "0830,0930") (by decide)).1

/-- Course used by the C8 counterexample: it has a theoretical (lecture)
group 2 and no lab groups at all. -/
def c8course : CourseRec :=
  { sigle := "LOG1810", name := "Logique", nb_credit := 3,
    theo_groups := [(2, [mkGroup 2 "LUN" "B-2325" 1 "every_week" "0830"])],
    lab_groups := [] }

/-- Alternance map used by the C8 counterexample. -/
def c8amap : AltMap := [(100, { day_name := "LUNDI", week_type := "B1" })]

/-- C8 counterexample: selecting the theoretical groups with the upper-case
key "C" emits a lecture event titled with the "LAB" label (the label test is
`group_type == 'c'`, exact and case-sensitive, not a lecture/lab
distinction), even though the course has no lab group. -/
theorem C8_counterexample :
    c8course.lab_groups = [] ∧
    entryEvents c8course "C" 2 c8amap 100 100
      = .ok [{ name := "LOG1810 - Logique - Groupe 2 (LAB)", beginDate := 100,
               beginHour := 8, beginMinute := 30, tz := "America/Toronto",
               durationHours := 1, location := "B-2325",
               alarmTriggersMinutes := [-30] }] := by
  exact ⟨rfl, by rfl⟩

/-- C8 amended: every emitted event takes its start time from the first
hour token parsed as "HHMM" on the calendar day in the Toronto zone, its
duration in hours from the count of comma-separated hour tokens, its
location from the Group's room, and a single alarm 30 minutes before start;
its title contains course code, name, group number and the label "COURS"
exactly when the selection's group-type key is the exact string "c", else
"LAB" (not lecture-vs-lab provenance). -/
theorem C8_event_fields (sigle cname group_type : String) (g : GroupRec)
    (amap : AltMap) (d : Nat) (e : Event)
    (h : dayEventE sigle cname group_type g amap d = .ok (some e)) :
    ∃ hh mm, parseHHMM ((pySplit g.hour).headD "") = some (hh, mm) ∧
      e.beginDate = d ∧ e.beginHour = hh ∧ e.beginMinute = mm ∧
      e.tz = "America/Toronto" ∧
      e.durationHours = (pySplit g.hour).length ∧
      e.location = g.room ∧
      e.alarmTriggersMinutes = [-30] ∧
      e.name = mkTitle sigle cname g.number (mkLabel group_type) ∧
      mkLabel group_type = (if group_type = "c" then "COURS" else "LAB") := by
  unfold dayEventE at h
  split at h
  · cases h
  · split at h
    · rcases hp : parseHHMM ((pySplit g.hour).headD "") with _ | ⟨hh, mm⟩
      · rw [hp] at h
        cases h
      · rw [hp] at h
        injection h with h2
        injection h2 with h3
        refine ⟨hh, mm, rfl, ?_⟩
        rw [← h3]
        exact ⟨rfl, rfl, rfl, rfl, rfl, rfl, rfl, rfl, rfl⟩
    · cases h

/-- The event expected by the C8 witness. -/
def c8event : Event :=
  { name := "LOG1810 - Logique - Groupe 2 (COURS)", beginDate := 100,
    beginHour := 8, beginMinute := 30, tz := "America/Toronto",
    durationHours := 1, location := "B-2325", alarmTriggersMinutes := [-30] }

/-- Witness for C8 at a concrete input. -/
theorem C8_witness :
    ∃ hh mm,
      parseHHMM ((pySplit (mkGroup 2 "LUN" "B-2325" 1 "every_week" "0830").hour).headD "")
        = some (hh, mm) ∧
      c8event.beginDate = 100 ∧ c8event.beginHour = hh ∧ c8event.beginMinute = mm ∧
      c8event.tz = "America/Toronto" ∧
      c8event.durationHours
        = (pySplit (mkGroup 2 "LUN" "B-2325" 1 "every_week" "0830").hour).length ∧
      c8event.location = (mkGroup 2 "LUN" "B-2325" 1 "every_week" "0830").room ∧
      c8event.alarmTriggersMinutes = [-30] ∧
      c8event.name = mkTitle "LOG1810" "Logique"
        (mkGroup 2 "LUN" "B-2325" 1 "every_week" "0830").number (mkLabel "c") ∧
      mkLabel "c" = (if ("c" : String) = "c" then "COURS" else "LAB") :=
  C8_event_fields "LOG1810" "Logique" "c"
    (mkGroup 2 "LUN" "B-2325" 1 "every_week" "0830") c8amap 100 c8event (by rfl)

/-- Reduction of `readRowsStep` on an exactly-15-field row (the positional
unpacking succeeded). -/
theorem readRowsStep_cons (reg : Registry)
    (a0 sigle number credit a4 a5 room ptype a8 wnb ctype cname a12 wday hour : String) :
    readRowsStep reg [a0, sigle, number, credit, a4, a5, room, ptype, a8, wnb,
      ctype, cname, a12, wday, hour] =
      (if sigle = "" ∨ number = "" ∨ credit = "" ∨ room = "" ∨ ptype = "" ∨
          ctype = "" ∨ cname = "" ∨ wday = "" ∨ hour = "" then
        .ok reg
      else
        match pyParseInt number, pyFloatTrunc (pyReplaceCommaDot credit) with
        | some n, some cr =>
          .ok (updateReg
            (if (getCourseReg reg sigle).isSome then reg
             else reg ++ [(sigle, mkCourse sigle cname cr)]) sigle
            (fun c => addGroup c (pyLower ptype)
              (mkGroup n wday room 1
                (if wnb = "I" then "B1" else if wnb = "P" then "B2" else "every_week")
                hour)))
        | _, _ => .ok reg) := rfl

/-- Reduction of `altRowStep` on an exactly-3-field row. -/
theorem altRowStep_cons (m : AltMap) (a b c : String) :
    altRowStep m [a, b, c] =
      (match parseDate a with
      | none => .ok m
      | some d =>
        .ok (updateA m d { day_name := pyUpper (pyStrip b),
                           week_type := pyUpper (pyStrip c) })) := rfl

/-- C6 counterexample: a timetable row with 16 fields (and an alternance
row with 4 fields) is not skipped — the positional unpacking raises an
uncaught `ValueError`, so ingestion can fail on a malformed row, not only
on file I/O. -/
theorem C6_counterexample :
    (List.replicate 16 "x").length = 16 ∧
    readRowsStep [] (List.replicate 16 "x")
      = .error "ValueError: too many values to unpack (expected 15)" ∧
    altRowStep [] ["2024-09-02", "LUNDI", "B1", "extra"]
      = .error "ValueError: too many values to unpack (expected 3)" := by
  exact ⟨by decide, by rfl, by rfl⟩

/-- C6 amended: rows with fewer fields than expected, rows with an empty
required field, and rows with unparsable numbers/dates are skipped silently
by both ingestion loops; but a row with more fields than the unpacking
expects raises an uncaught error, so ingestion does not fail only on file
I/O. -/
theorem C6_malformed_rows_skipped :
    (∀ (reg : Registry) (row : List String), row.length < 15 →
      readRowsStep reg row = .ok reg) ∧
    (∀ (reg : Registry)
       (a0 sigle number credit a4 a5 room ptype a8 wnb ctype cname a12 wday hour : String),
      (sigle = "" ∨ number = "" ∨ credit = "" ∨ room = "" ∨ ptype = "" ∨
        ctype = "" ∨ cname = "" ∨ wday = "" ∨ hour = "") →
      readRowsStep reg [a0, sigle, number, credit, a4, a5, room, ptype, a8, wnb,
        ctype, cname, a12, wday, hour] = .ok reg) ∧
    (∀ (reg : Registry)
       (a0 sigle number credit a4 a5 room ptype a8 wnb ctype cname a12 wday hour : String),
      (pyParseInt number = none ∨ pyFloatTrunc (pyReplaceCommaDot credit) = none) →
      readRowsStep reg [a0, sigle, number, credit, a4, a5, room, ptype, a8, wnb,
        ctype, cname, a12, wday, hour] = .ok reg) ∧
    (∀ (m : AltMap) (row : List String), row.length < 3 → altRowStep m row = .ok m) ∧
    (∀ (m : AltMap) (a b c : String), parseDate a = none →
      altRowStep m [a, b, c] = .ok m) := by
  refine ⟨?_, ?_, ?_, ?_, ?_⟩
  · intro reg row h
    unfold readRowsStep
    rw [if_pos h]
  · intro reg a0 sigle number credit a4 a5 room ptype a8 wnb ctype cname a12 wday hour h
    rw [readRowsStep_cons, if_pos h]
  · intro reg a0 sigle number credit a4 a5 room ptype a8 wnb ctype cname a12 wday hour h
    rw [readRowsStep_cons]
    by_cases hemp : sigle = "" ∨ number = "" ∨ credit = "" ∨ room = "" ∨ ptype = "" ∨
        ctype = "" ∨ cname = "" ∨ wday = "" ∨ hour = ""
    · rw [if_pos hemp]
    · rw [if_neg hemp]
      rcases hpn : pyParseInt number with _ | n
      · rfl
      · rcases h with h | h
        · rw [hpn] at h
          cases h
        · rw [h]
  · intro m row h
    unfold altRowStep
    rw [if_pos h]
  · intro m a b c h
    rw [altRowStep_cons, h]

/-- Witness for C6 at concrete inputs. -/
theorem C6_witness :
    readRowsStep [] ["solo"] = .ok [] ∧
    readRowsStep [] ["", "", "2", "3", "", "", "R", "C", "", "", "C", "N", "", "LUN", "0830"]
      = .ok [] ∧
    readRowsStep [] ["", "S", "x2", "3", "", "", "R", "C", "", "", "C", "N", "", "LUN", "0830"]
      = .ok [] ∧
    altRowStep [] ["only-two", "fields"] = .ok [] ∧
    altRowStep [] ["2024-13-02", "LUNDI", "B1"] = .ok [] := by
  have h := C6_malformed_rows_skipped
  exact ⟨h.1 [] ["solo"] (by decide),
    h.2.1 [] "" "" "2" "3" "" "" "R" "C" "" "" "C" "N" "" "LUN" "0830" (by decide),
    h.2.2.1 [] "" "S" "x2" "3" "" "" "R" "C" "" "" "C" "N" "" "LUN" "0830" (by decide),
    h.2.2.2.1 [] ["only-two", "fields"] (by decide),
    h.2.2.2.2 [] "2024-13-02" "LUNDI" "B1" (by decide)⟩

/-- Merging a bucket holding one freshly constructed group returns it
unchanged. -/
theorem mergeBucket_singleton_mk (n : Int) (a b : String) (s : Int) (f h : String) :
    mergeBucket n [mkGroup n a b s f h] = [mkGroup n a b s f h] := by
  have h1 := mergeBucket_const_key n (a, b, f) [mkGroup n a b s f h] (by simp)
    (by
      intro g hg
      rw [List.mem_singleton.mp hg]
      rfl)
  rw [h1]
  simp only [List.map_cons, List.map_nil, List.sum_cons, List.sum_nil, add_zero,
    pyJoin_singleton]
  rw [show (mkGroup n a b s f h).course_length = s from rfl]
  exact congrArg (fun x => [x]) (mkGroup_recanon n a b s f h)

/-- `add_group` on a course with empty buckets: the routing is decided by
the lower-cased group-type argument. -/
theorem addGroup_empty_buckets (sg nm : String) (cr : Int) (gt : String)
    (n : Int) (a b : String) (s : Int) (f h : String) :
    addGroup (mkCourse sg nm cr) gt (mkGroup n a b s f h) =
      if pyLower gt = "c" then
        { sigle := sg, name := nm, nb_credit := cr,
          theo_groups := [(n, [mkGroup n a b s f h])], lab_groups := [] }
      else if pyLower gt = "l" then
        { sigle := sg, name := nm, nb_credit := cr,
          theo_groups := [], lab_groups := [(n, [mkGroup n a b s f h])] }
      else mkCourse sg nm cr := by
  have hnum : (mkGroup n a b s f h).number = n := rfl
  by_cases h1 : pyLower gt = "c"
  · simp [addGroup, mergeCourse, mkCourse, h1, appendB, mergeGroupsMap,
      hnum, mergeBucket_singleton_mk]
  · by_cases h2 : pyLower gt = "l"
    · simp [addGroup, mergeCourse, mkCourse, h1, h2, appendB, mergeGroupsMap,
        hnum, mergeBucket_singleton_mk]
    · simp [addGroup, mergeCourse, mkCourse, h1, h2, mergeGroupsMap]

/-- The timetable row of the C2 counterexample: column [7] (period type) is
"C" while column [10] (group type) is "L". -/
def c2row : List String :=
  ["", "LOG1810", "2", "3,0", "", "", "B-2325", "C", "", "", "L",
   "Elements de logiciel", "", "LUN", "0830"]

/-- C2 counterexample: the row's column [10] is "L", yet the new group is
stored in the theoretical bucket and the lab bucket stays empty, because the
code passes column [7] (`period_type`), not column [10] (`course_type`), to
`add_group`. -/
theorem C2_counterexample :
    c2row[10]? = some "L" ∧ c2row[7]? = some "C" ∧
    ((readRowsStep [] c2row).toOption.bind (fun reg => getCourseReg reg "LOG1810")).map
        (fun c => (c.lab_groups, lookupB c.theo_groups 2))
      = some ([], some [mkGroup 2 "LUN" "B-2325" 1 "every_week" "0830"]) := by
  refine ⟨rfl, rfl, ?_⟩
  rfl

/-- Bucket lookup on a single-bucket map. -/
theorem lookupB_single (n : Int) (gs : List GroupRec) : lookupB [(n, gs)] n = some gs := by
  unfold lookupB
  rw [List.find?_cons_of_pos _ (by simp)]
  rfl

/-- C2 amended: for a well-formed timetable row, the bucket (theoretical vs
lab) is determined by column [7] (the field unpacked as `period_type`),
case-insensitively "c" → theoretical, "l" → lab, anything else discarded;
column [10] (the group-type field) is only checked for non-emptiness and
has no influence on the routing. -/
theorem C2_routing_by_period_type
    (a0 sigle number credit a4 a5 room ptype a8 wnb ctype cname a12 wday hour : String)
    (hs : sigle ≠ "") (hn : number ≠ "") (hcr : credit ≠ "") (hr : room ≠ "")
    (hp : ptype ≠ "") (hct : ctype ≠ "") (hnm : cname ≠ "") (hw : wday ≠ "")
    (hh : hour ≠ "")
    (n : Int) (hpn : pyParseInt number = some n)
    (cr : Int) (hpc : pyFloatTrunc (pyReplaceCommaDot credit) = some cr) :
    readRowsStep [] [a0, sigle, number, credit, a4, a5, room, ptype, a8, wnb,
        ctype, cname, a12, wday, hour]
      = .ok [(sigle, addGroup (mkCourse sigle cname cr) (pyLower ptype)
          (mkGroup n wday room 1
            (if wnb = "I" then "B1" else if wnb = "P" then "B2" else "every_week")
            hour))] ∧
    (pyLower ptype = "c" →
      (addGroup (mkCourse sigle cname cr) (pyLower ptype)
        (mkGroup n wday room 1
          (if wnb = "I" then "B1" else if wnb = "P" then "B2" else "every_week")
          hour)).lab_groups = [] ∧
      lookupB (addGroup (mkCourse sigle cname cr) (pyLower ptype)
        (mkGroup n wday room 1
          (if wnb = "I" then "B1" else if wnb = "P" then "B2" else "every_week")
          hour)).theo_groups n
        = some [mkGroup n wday room 1
            (if wnb = "I" then "B1" else if wnb = "P" then "B2" else "every_week")
            hour]) ∧
    (pyLower ptype = "l" →
      (addGroup (mkCourse sigle cname cr) (pyLower ptype)
        (mkGroup n wday room 1
          (if wnb = "I" then "B1" else if wnb = "P" then "B2" else "every_week")
          hour)).theo_groups = [] ∧
      lookupB (addGroup (mkCourse sigle cname cr) (pyLower ptype)
        (mkGroup n wday room 1
          (if wnb = "I" then "B1" else if wnb = "P" then "B2" else "every_week")
          hour)).lab_groups n
        = some [mkGroup n wday room 1
            (if wnb = "I" then "B1" else if wnb = "P" then "B2" else "every_week")
            hour]) ∧
    (∀ ctype2 : String,
      readRowsStep [] [a0, sigle, number, credit, a4, a5, room, ptype, a8, wnb,
        ctype2, cname, a12, wday, hour]
      = if ctype2 = "" then .ok []
        else readRowsStep [] [a0, sigle, number, credit, a4, a5, room, ptype, a8, wnb,
          ctype, cname, a12, wday, hour]) := by
  have hmain : ∀ ct : String, ct ≠ "" →
      readRowsStep [] [a0, sigle, number, credit, a4, a5, room, ptype, a8, wnb,
        ct, cname, a12, wday, hour]
      = .ok [(sigle, addGroup (mkCourse sigle cname cr) (pyLower ptype)
          (mkGroup n wday room 1
            (if wnb = "I" then "B1" else if wnb = "P" then "B2" else "every_week")
            hour))] := by
    intro ct hct2
    rw [readRowsStep_cons,
      if_neg (by simp [hs, hn, hcr, hr, hp, hct2, hnm, hw, hh]), hpn, hpc]
    simp [updateReg, getCourseReg]
  refine ⟨hmain ctype hct, ?_, ?_, ?_⟩
  · intro hc
    rw [hc, addGroup_empty_buckets, if_pos (by decide)]
    exact ⟨rfl, lookupB_single n _⟩
  · intro hl
    rw [hl, addGroup_empty_buckets, if_neg (by decide), if_pos (by decide)]
    exact ⟨rfl, lookupB_single n _⟩
  · intro ctype2
    by_cases hct2 : ctype2 = ""
    · subst hct2
      rw [if_pos rfl, readRowsStep_cons, if_pos (by simp)]
    · rw [if_neg hct2, hmain ctype2 hct2, hmain ctype hct]

/-- Witness for C2 at a concrete input: period type "C" (column 7) with
group type "L" (column 10) lands in the theoretical bucket. -/
theorem C2_witness :
    (addGroup (mkCourse "LOG1810" "Elements de logiciel" 3) (pyLower "C")
      (mkGroup 2 "LUN" "B-2325" 1 "every_week" "0830")).lab_groups = [] ∧
    lookupB (addGroup (mkCourse "LOG1810" "Elements de logiciel" 3) (pyLower "C")
      (mkGroup 2 "LUN" "B-2325" 1 "every_week" "0830")).theo_groups 2
      = some [mkGroup 2 "LUN" "B-2325" 1 "every_week" "0830"] := by
  have h := C2_routing_by_period_type "" "LOG1810" "2" "3,0" "" "" "B-2325" "C" "" ""
    "L" "Elements de logiciel" "" "LUN" "0830"
    (by decide) (by decide) (by decide) (by decide) (by decide) (by decide) (by decide)
    (by decide) (by decide) 2 (by decide) 3 (by decide)
  exact h.2.1 (by decide)

end Poly
